import Mathlib

/-!
Verification development for the task-tracker core of the CNA Logistics
Streamlit app: the timer state machine (`start_task` / `pause_task` /
`resume_task` / `end_task` / `compute_elapsed_seconds`), the HH:MM:SS
duration formatting and parsing helpers, the live-activity store
(`save_live_activity` / `update_live_activity_state` /
`load_own_live_activity` / `load_live_activities`), and the completed-record
store (`atomic_write_parquet`, `build_out_dir`, the submit filename).

Modelling conventions:
  * UTC instants are integers (whole seconds).  The Python code stores
    timezone-aware `datetime` values and truncates differences with
    `int(...total_seconds())`; at whole-second granularity that subtraction
    is exact integer subtraction.
  * Python's `None` becomes `Option`, falsiness checks on strings become
    emptiness checks, and a swallowed exception becomes an explicit
    error branch of a sum type.
  * Timezone conversion to US Eastern lives in `zoneinfo`, outside the
    repository; functions that need it take the conversion
    `Int → CivilDT` as an explicit argument.
-/

namespace TaskTracker

/-! ## Decimal digits: models Python `f"{n}"` / `f"{n:02d}"` rendering and
the digit-consuming part of `int(str)`. -/

/-- Numeric value of a decimal digit character (`'0'` ↦ 0, ..., `'9'` ↦ 9). -/
def charToDigit (c : Char) : Nat := c.toNat - 48

/-- Little-endian decimal digits of `n`, with explicit fuel so that the
definition is structural (and hence evaluates inside `decide`). -/
def digitsRev : Nat → Nat → List Nat
  | 0, _ => []
  | fuel + 1, n => if n = 0 then [] else n % 10 :: digitsRev fuel (n / 10)

/-- Decimal rendering of a natural number as characters, most significant
digit first; `0` renders as `"0"`, as in Python. -/
def natChars (n : Nat) : List Char :=
  if n = 0 then ['0'] else ((digitsRev n n).map Nat.digitChar).reverse

/-- Left-pad a character list with `'0'` up to width `w`
(models Python's `:0Nd` format padding). -/
def padLeft (w : Nat) (l : List Char) : List Char :=
  List.replicate (w - l.length) '0' ++ l

/-- Characters of `f"{n:02d}"`. -/
def pad2 (n : Nat) : List Char := padLeft 2 (natChars n)

/-- String of `f"{n:0wd}"`. -/
def padNum (w n : Nat) : String := String.mk (padLeft w (natChars n))

/-- Whitespace characters stripped by Python's `str.strip()` / `int()`. -/
def isPySpace (c : Char) : Bool :=
  c == ' ' || c == '\t' || c == '\n' || c == '\r' || c == '\x0b' || c == '\x0c'

/-- Python `str.strip()` on a character list. -/
def pyStrip (l : List Char) : List Char :=
  ((l.dropWhile isPySpace).reverse.dropWhile isPySpace).reverse

/-- Value of a list of decimal digit characters, most significant first. -/
def parseDigits (l : List Char) : Nat :=
  l.foldl (fun a c => 10 * a + charToDigit c) 0

/-- Python `int(str)` on an already-stripped sign-and-digits body:
`none` models a raised `ValueError`.  (Digit-grouping underscores,
accepted by CPython, are not modelled.) -/
def pyIntBody (l : List Char) : Option Int :=
  if l ≠ [] ∧ l.all Char.isDigit then some (parseDigits l : Int) else none

/-- Python `int(str)`: strips whitespace, handles an optional sign, then
requires a non-empty run of decimal digits; `none` models `ValueError`. -/
def pyInt (l : List Char) : Option Int :=
  match pyStrip l with
  | [] => none
  | c :: rest =>
    if c = '-' then (pyIntBody rest).map (fun n => -n)
    else if c = '+' then pyIntBody rest
    else pyIntBody (c :: rest)

/-- Python `str.split(":")` on a character list: always returns at least
one (possibly empty) part. -/
def splitCols : List Char → List (List Char)
  | [] => [[]]
  | c :: rest =>
    if c = ':' then [] :: splitCols rest
    else
      match splitCols rest with
      | [] => [[c]]
      | h :: t => (c :: h) :: t

/-! ## Clock formatting helpers (src/utils.py). -/

/-- `format_hhmmss(seconds)`: clamps negatives to 0 and renders
`HH:MM:SS` with two-digit zero-padded fields (hours may exceed two
digits).  Faithful to `utils.format_hhmmss`. -/
def format_hhmmss (seconds : Int) : String :=
  let n := seconds.toNat
  String.mk (pad2 (n / 3600) ++ ':' :: pad2 (n % 3600 / 60) ++ ':' :: pad2 (n % 60))

/-- `parse_hhmmss(time_str)`: strips the string, splits on `":"`, accepts
`HH:MM:SS` or `HH:MM`, returns total seconds, and `-1` on any failure
(wrong part count or `int()` raising).  Faithful to `utils.parse_hhmmss`. -/
def parse_hhmmss (t : String) : Int :=
  match splitCols (pyStrip t.data) with
  | [a, b, c] =>
    match pyInt a, pyInt b, pyInt c with
    | some h, some m, some s => h * 3600 + m * 60 + s
    | _, _, _ => -1
  | [a, b] =>
    match pyInt a, pyInt b with
    | some h, some m => h * 3600 + m * 60
    | _, _ => -1
  | _ => -1

/-! ## Timer state machine (src/pages/task-tracker.py, mirrored in
src/app.py).  The session-state fields relevant to timing. -/

/-- The timer fields of the Streamlit session state
(`state`, `start_utc`, `end_utc`, `pause_start_utc`, `paused_seconds`). -/
structure TimerState where
  state : String
  start_utc : Option Int
  end_utc : Option Int
  pause_start_utc : Option Int
  paused_seconds : Int
deriving DecidableEq, Repr

/-- `DEFAULT_STATE`'s timer fields: idle, nothing set, zero pause total. -/
def initial_state : TimerState :=
  { state := "idle", start_utc := none, end_utc := none
    pause_start_utc := none, paused_seconds := 0 }

/-- `compute_elapsed_seconds()` with the clock reading passed explicitly.
`none` models the `TypeError` raised when the phase is `"ended"` but
`end_utc` is `None` (`None - start` in Python); otherwise it is the
source's `max(0, base - paused)`. -/
def compute_elapsed_seconds (s : TimerState) (now : Int) : Option Int :=
  match s.start_utc with
  | none => some 0
  | some start =>
    let ref? := if s.state = "ended" then s.end_utc else some now
    match ref? with
    | none => none
    | some ref =>
      let base := ref - start
      let paused := s.paused_seconds +
        (if s.state = "paused" then
          match s.pause_start_utc with
          | some p => now - p
          | none => 0
        else 0)
      some (max 0 (base - paused))

/-- `start_task()`: unconditionally sets `state="running"` and
`start_utc=now()`.  (The `live_activity_saved` flag it also clears is a
broadcast flag, not a timer field.) -/
def start_task (s : TimerState) (now : Int) : TimerState :=
  { s with state := "running", start_utc := some now }

/-- `pause_task()`: unconditionally sets `state="paused"` and
`pause_start_utc=now()`.  (The live-activity file update it performs is
modelled separately by `update_live_activity_state`.) -/
def pause_task (s : TimerState) (now : Int) : TimerState :=
  { s with state := "paused", pause_start_utc := some now }

/-- `resume_task()`: adds `now - pause_start_utc` to `paused_seconds`,
clears `pause_start_utc`, sets `state="running"`.  `none` models the
`TypeError` raised when `pause_start_utc` is `None`. -/
def resume_task (s : TimerState) (now : Int) : Option TimerState :=
  match s.pause_start_utc with
  | none => none
  | some p =>
    some { s with paused_seconds := s.paused_seconds + (now - p)
                  pause_start_utc := none, state := "running" }

/-- `end_task()`: sets `state="ended"` and `end_utc=now()`; it does not
touch `paused_seconds` or `pause_start_utc`.  (It also deletes the live
activity file, modelled separately by `delete_live_activity`.) -/
def end_task (s : TimerState) (now : Int) : TimerState :=
  { s with state := "ended", end_utc := some now }

/-- Run a sequence of `pause()`/`resume()` pairs, each pair given as
(pause instant, resume instant). -/
def run_pause_resume_pairs (s : TimerState) : List (Int × Int) → Option TimerState
  | [] => some s
  | (p, r) :: rest =>
    match resume_task (pause_task s p) r with
    | none => none
    | some s2 => run_pause_resume_pairs s2 rest

/-- Sum of the completed pause-interval durations of a pair list. -/
def completed_pause_sum (pairs : List (Int × Int)) : Int :=
  (pairs.map (fun pr => pr.2 - pr.1)).sum

/-- Follows the spec's words (§4.2 and claim C1): the pause total is
`accumulated_pause_seconds` plus, when the phase is Paused with
`pause_started_at` set, the open interval since `pause_started_at`. -/
def pause_total_spec (s : TimerState) (now : Int) : Int :=
  s.paused_seconds +
    (if s.state = "paused" then
      match s.pause_start_utc with
      | some p => now - p
      | none => 0
    else 0)

/-! ## Live-activity store (src/utils.py lines 363-563; the divergent
variant in src/task_tracker_utils.py lines 250-382). -/

/-- Python `str.strip()` at the `String` level. -/
def pyStripStr (s : String) : String := String.mk (pyStrip s.data)

/-- Python `s or None` on a string field: empty string becomes `None`. -/
def strOrNone (s : String) : Option String := if s = "" then none else some s

/-- One row of a `user={key}.parquet` live-activity file
(`LIVE_ACTIVITY_SCHEMA`). -/
structure LiveRow where
  UserKey : String
  UserLogin : String
  FullName : Option String
  TaskName : String
  TaskCadence : String
  CompanyGroup : Option String
  IsCoveringFor : Bool
  CoveringFor : Option String
  Notes : Option String
  StartTimestampUTC : Int
  State : String
  PausedSeconds : Int
  PauseStartTimestampUTC : Option Int
deriving DecidableEq, Repr

/-- Contents of one live-activity file: `corrupt` models a file whose
`pd.read_parquet` raises; `table` holds the rows read. -/
inductive LiveFileState where
  | corrupt : LiveFileState
  | table : List LiveRow → LiveFileState
deriving DecidableEq, Repr

/-- The live-activity directory: an association from user key (the
`user={key}.parquet` file name) to file contents.  A key with no entry
models a missing file. -/
abbrev LiveDir := List (String × LiveFileState)

/-- Look up the file for a user key (first match). -/
def getFile : LiveDir → String → Option LiveFileState
  | [], _ => none
  | (k2, v) :: rest, k => if k2 = k then some v else getFile rest k

/-- Write (create or overwrite in place) the file for a user key. -/
def setFile : LiveDir → String → LiveFileState → LiveDir
  | [], k, v => [(k, v)]
  | (k2, v2) :: rest, k, v =>
    if k2 = k then (k, v) :: rest else (k2, v2) :: setFile rest k v

/-- `save_live_activity(...)` (utils.py lines 363-398): builds the single
record row from its arguments and atomically overwrites
`user={user_key}.parquet`. -/
def save_live_activity (d : LiveDir) (user_key user_login full_name task_name
    cadence account covering_for notes : String) (start_utc : Int)
    (state : String) (paused_seconds : Int) (pause_start_utc : Option Int) :
    LiveDir :=
  let row : LiveRow :=
    { UserKey := user_key
      UserLogin := user_login
      FullName := strOrNone full_name
      TaskName := task_name
      TaskCadence := cadence
      CompanyGroup := strOrNone account
      IsCoveringFor := pyStripStr covering_for ≠ ""
      CoveringFor := strOrNone covering_for
      Notes := if pyStripStr notes ≠ "" then some (pyStripStr notes) else none
      StartTimestampUTC := start_utc
      State := state
      PausedSeconds := paused_seconds
      PauseStartTimestampUTC := pause_start_utc }
  setFile d user_key (.table [row])

/-- `update_live_activity_state(...)` (utils.py lines 400-420): no-op when
the file is missing, unreadable, or empty; otherwise overwrites the
`State` / `PausedSeconds` / `PauseStartTimestampUTC` columns of every row
and writes the file back. -/
def update_live_activity_state (d : LiveDir) (user_key state : String)
    (paused_seconds : Int) (pause_start_utc : Option Int) : LiveDir :=
  match getFile d user_key with
  | none => d
  | some .corrupt => d
  | some (.table []) => d
  | some (.table rows) =>
    setFile d user_key (.table (rows.map (fun r =>
      { r with State := state, PausedSeconds := paused_seconds
               PauseStartTimestampUTC := pause_start_utc })))

/-- The dict returned by `load_own_live_activity`. -/
structure OwnSnapshot where
  full_name : String
  task_name : String
  cadence : String
  account : String
  covering_for : String
  notes : String
  start_utc : Int
  state : String
  paused_seconds : Int
  pause_start_utc : Option Int
deriving DecidableEq, Repr

/-- `load_own_live_activity(dir, user_key)` (utils.py lines 422-445):
`None` for a missing file, an unreadable file (the broad `except` around
`pd.read_parquet`), or an empty table; otherwise the first row converted
to a snapshot dict.  `int(x or 0)` is the identity on stored integers,
and `or ""` turns absent optional strings into `""`. -/
def load_own_live_activity (d : LiveDir) (user_key : String) :
    Option OwnSnapshot :=
  match getFile d user_key with
  | none => none
  | some .corrupt => none
  | some (.table []) => none
  | some (.table (r :: _)) =>
    some
      { full_name := r.FullName.getD ""
        task_name := r.TaskName
        cadence := r.TaskCadence
        account := r.CompanyGroup.getD ""
        covering_for := r.CoveringFor.getD ""
        notes := r.Notes.getD ""
        start_utc := r.StartTimestampUTC
        state := r.State
        paused_seconds := r.PausedSeconds
        pause_start_utc := r.PauseStartTimestampUTC }

/-- `delete_live_activity(dir, user_key)`: removes the file if present. -/
def delete_live_activity (d : LiveDir) (user_key : String) : LiveDir :=
  d.filter (fun e => e.1 != user_key)

/-- Read every globbed file of the directory into one table, as
`ds.dataset(files).to_table()` does; any unreadable file makes the whole
read raise (`none`). -/
def read_all_rows : LiveDir → Option (List LiveRow)
  | [] => some []
  | (_, f) :: rest =>
    match f with
    | .corrupt => none
    | .table rs => (read_all_rows rest).map (fun a => rs ++ a)

/-- `load_live_activities(dir, _exclude_user_key)` (utils.py lines
538-563): empty when there are no files or the dataset read raises
(`st.error` + empty frame); otherwise all rows, minus rows whose
`UserKey` equals a truthy `_exclude_user_key` (the `if _exclude_user_key:`
guard skips the filter for `None` and for `""`). -/
def load_live_activities (d : LiveDir) (excl : Option String) : List LiveRow :=
  if d.isEmpty then []
  else
    match read_all_rows d with
    | none => []
    | some rows =>
      match excl with
      | none => rows
      | some k => if k = "" then rows else rows.filter (fun r => r.UserKey != k)

/-- `load_live_activities` as written in src/task_tracker_utils.py lines
353-382: identical shape, but the exclusion filter tests the `UserLogin`
column instead of `UserKey` (its column projection also drops `UserKey`;
rows are kept whole here, only the filter matters for the claims). -/
def tt_load_live_activities (d : LiveDir) (excl : Option String) :
    List LiveRow :=
  if d.isEmpty then []
  else
    match read_all_rows d with
    | none => []
    | some rows =>
      match excl with
      | none => rows
      | some k =>
        if k = "" then rows else rows.filter (fun r => r.UserLogin != k)

/-! ## Completed-record store (src/utils.py lines 338-361 and the submit
path of src/pages/task-tracker.py lines 242-267). -/

/-- A filesystem fragment for the completed store: full path string to
file bytes.  Partially written content is a proper prefix of the bytes. -/
abbrev CompletedFS := List (String × List Nat)

/-- Look up a path. -/
def getData : CompletedFS → String → Option (List Nat)
  | [], _ => none
  | (p2, v) :: rest, p => if p2 = p then some v else getData rest p

/-- Create or overwrite a path. -/
def setData : CompletedFS → String → List Nat → CompletedFS
  | [], p, v => [(p, v)]
  | (p2, v2) :: rest, p, v =>
    if p2 = p then (p, v) :: rest else (p2, v2) :: setData rest p v

/-- Remove a path. -/
def removeData : CompletedFS → String → CompletedFS
  | [], _ => []
  | (p2, v) :: rest, p =>
    if p2 = p then removeData rest p else (p2, v) :: removeData rest p

/-- The temporary path `path.with_suffix(".parquet.tmp")`: on a path
ending in `".parquet"` this replaces that suffix with `".parquet.tmp"`,
i.e. appends `".tmp"`. -/
def tmpPathOf (p : String) : String := p ++ ".tmp"

/-- Crash-point model of `atomic_write_parquet(df, path)` (utils.py lines
338-344): sub-step `k ≤ content.length` has written the first `k` bytes
of the parquet serialisation to the temporary path; the final sub-step
`k = content.length + 1` is the single `tmp_path.replace(path)` rename,
which removes the temporary file and installs the full content at the
final path. -/
def atomic_write_parquet_step (fs : CompletedFS) (p : String)
    (content : List Nat) (k : Nat) : CompletedFS :=
  if k ≤ content.length then setData fs (tmpPathOf p) (content.take k)
  else setData (removeData fs (tmpPathOf p)) p content

/-- A civil (wall-clock) date-time in the display timezone, as produced
by `datetime.astimezone(ZoneInfo("America/New_York"))`. -/
structure CivilDT where
  year : Nat
  month : Nat
  day : Nat
  hour : Nat
  minute : Nat
  second : Nat
deriving DecidableEq, Repr

/-- `build_out_dir(completed_dir, user_key, ts)` (utils.py lines 346-361):
the partition path segments
`user={user_key}/year={YYYY}/month={MM}/day={DD}` computed from the
Eastern conversion of `ts` (`toEast` stands for `to_eastern`, whose
timezone arithmetic lives in `zoneinfo`).  The year is rendered plain,
month and day zero-padded to two digits, as in the f-strings. -/
def build_out_dir (toEast : Int → CivilDT) (completed_dir : List String)
    (user_key : String) (ts : Int) : List String :=
  let e := toEast ts
  completed_dir ++
    ["user=" ++ user_key,
     "year=" ++ String.mk (natChars e.year),
     "month=" ++ padNum 2 e.month,
     "day=" ++ padNum 2 e.day]

/-- `f"{dt:%Y%m%d_%H%M%S}"`: year zero-padded to four digits, the other
fields to two. -/
def strftime_compact (e : CivilDT) : String :=
  padNum 4 e.year ++ padNum 2 e.month ++ padNum 2 e.day ++ "_" ++
    padNum 2 e.hour ++ padNum 2 e.minute ++ padNum 2 e.second

/-- The submit filename of `confirm_submit` (task-tracker.py line 266):
`f"task_{eastern_start:%Y%m%d_%H%M%S}_{record['TaskID'][:8]}.parquet"`,
where `eastern_start` is the Eastern conversion of the record's
`start_utc` and `TaskID` is the fresh `uuid4` of the record. -/
def task_file_name (toEast : Int → CivilDT) (start_utc : Int)
    (task_id : String) : String :=
  "task_" ++ strftime_compact (toEast start_utc) ++ "_" ++
    task_id.take 8 ++ ".parquet"

/-- Follows the spec's words for claim C4 (§4.4: "a filename that embeds
the submission timestamp and a record-unique suffix"): the same shape,
but with the submission (upload) instant embedded instead of the start
instant.  Kept for comparison with `task_file_name`. -/
def task_file_name_spec (toEast : Int → CivilDT) (upload_utc : Int)
    (task_id : String) : String :=
  "task_" ++ strftime_compact (toEast upload_utc) ++ "_" ++
    task_id.take 8 ++ ".parquet"

/-- The duration chosen by `confirm_submit` (task-tracker.py lines
242-247): the parsed edit when the parse is non-negative, otherwise the
previously computed `elapsed_seconds` (with a non-blocking
`st.warning`); `build_task_record` then stores `int(duration)`, the
identity here. -/
def submit_duration (edited : String) (elapsed : Int) : Int :=
  let p := parse_hhmmss edited
  if p < 0 then elapsed else p

/-! ## Lemmas about decimal rendering and parsing. -/

theorem charToDigit_digitChar (d : Nat) (h : d < 10) :
    charToDigit (Nat.digitChar d) = d := by
  interval_cases d <;> decide

theorem isDigit_digitChar (d : Nat) (h : d < 10) :
    (Nat.digitChar d).isDigit = true := by
  interval_cases d <;> decide

theorem digitsRev_eq_digits (fuel : Nat) :
    ∀ n, n ≤ fuel → digitsRev fuel n = Nat.digits 10 n := by
  induction fuel with
  | zero =>
    intro n hn
    interval_cases n
    simp [digitsRev]
  | succ fuel ih =>
    intro n hn
    by_cases h0 : n = 0
    · subst h0; simp [digitsRev]
    · have hpos : 0 < n := Nat.pos_of_ne_zero h0
      have hdiv : n / 10 ≤ fuel := by
        have : n / 10 < n := Nat.div_lt_self hpos (by norm_num)
        omega
      rw [digitsRev, if_neg h0, ih _ hdiv,
        Nat.digits_def' (by norm_num : 1 < 10) hpos]

theorem natChars_eq (n : Nat) :
    natChars n =
      if n = 0 then ['0'] else ((Nat.digits 10 n).map Nat.digitChar).reverse := by
  unfold natChars
  rw [digitsRev_eq_digits n n le_rfl]

theorem natChars_ne_nil (n : Nat) : natChars n ≠ [] := by
  rw [natChars_eq]
  by_cases h0 : n = 0
  · simp [h0]
  · simp only [if_neg h0, ne_eq, List.reverse_eq_nil_iff, List.map_eq_nil_iff]
    exact Nat.digits_ne_nil_iff_ne_zero.mpr h0

theorem natChars_all_digit (n : Nat) :
    ∀ c ∈ natChars n, c.isDigit = true := by
  intro c hc
  rw [natChars_eq] at hc
  by_cases h0 : n = 0
  · simp [h0] at hc
    subst hc; decide
  · simp only [if_neg h0, List.mem_reverse, List.mem_map] at hc
    obtain ⟨d, hd, rfl⟩ := hc
    exact isDigit_digitChar d (Nat.digits_lt_base (by norm_num) hd)

theorem padLeft_all_digit (w : Nat) (n : Nat) :
    ∀ c ∈ padLeft w (natChars n), c.isDigit = true := by
  intro c hc
  rcases List.mem_append.mp hc with h | h
  · have := List.eq_of_mem_replicate h
    subst this; decide
  · exact natChars_all_digit n c h

theorem padLeft_ne_nil (w : Nat) (n : Nat) : padLeft w (natChars n) ≠ [] := by
  intro h
  rcases List.append_eq_nil.mp h with ⟨-, h2⟩
  exact natChars_ne_nil n h2

theorem foldl_digitChars (ds : List Nat) (h : ∀ d ∈ ds, d < 10) :
    ∀ acc : Nat,
      List.foldl (fun a c => 10 * a + charToDigit c) acc
          ((ds.map Nat.digitChar).reverse)
        = acc * 10 ^ ds.length + Nat.ofDigits 10 ds := by
  induction ds with
  | nil => intro acc; simp [Nat.ofDigits]
  | cons d rest ih =>
    intro acc
    have hd : d < 10 := h d (by simp)
    have hrest : ∀ x ∈ rest, x < 10 := fun x hx => h x (by simp [hx])
    simp only [List.map_cons, List.reverse_cons, List.foldl_append,
      List.foldl_cons, List.foldl_nil]
    rw [ih hrest acc, charToDigit_digitChar d hd, Nat.ofDigits_cons,
      List.length_cons]
    ring

theorem parseDigits_natChars (n : Nat) : parseDigits (natChars n) = n := by
  rw [natChars_eq]
  by_cases h0 : n = 0
  · simp [h0, parseDigits, charToDigit]
  · rw [if_neg h0]
    unfold parseDigits
    rw [foldl_digitChars (Nat.digits 10 n)
      (fun d hd => Nat.digits_lt_base (by norm_num) hd) 0]
    simp [Nat.ofDigits_digits]

theorem foldl_parse_zeros (k : Nat) :
    List.foldl (fun a c => 10 * a + charToDigit c) 0
      (List.replicate k '0') = 0 := by
  induction k with
  | zero => rfl
  | succ k ih => simpa [List.replicate_succ, charToDigit] using ih

theorem parseDigits_padLeft (w : Nat) (l : List Char) :
    parseDigits (padLeft w l) = parseDigits l := by
  unfold parseDigits padLeft
  rw [List.foldl_append, foldl_parse_zeros]

theorem isPySpace_eq_false_of_isDigit (c : Char) (h : c.isDigit = true) :
    isPySpace c = false := by
  rcases Bool.eq_false_or_eq_true (isPySpace c) with ht | hf
  · exfalso
    unfold isPySpace at ht
    simp only [Bool.or_eq_true, beq_iff_eq] at ht
    rcases ht with ((((h1 | h2) | h3) | h4) | h5) | h6 <;> subst_vars <;>
      exact absurd h (by decide)
  · exact hf

theorem dropWhile_eq_self_of (p : Char → Bool) (l : List Char)
    (h : ∀ c ∈ l, p c = false) : l.dropWhile p = l := by
  cases l with
  | nil => rfl
  | cons c rest => simp [List.dropWhile, h c (by simp)]

theorem pyStrip_eq_self (l : List Char) (h : ∀ c ∈ l, isPySpace c = false) :
    pyStrip l = l := by
  unfold pyStrip
  rw [dropWhile_eq_self_of _ _ h,
    dropWhile_eq_self_of _ _ (fun c hc => h c (List.mem_reverse.mp hc)),
    List.reverse_reverse]

theorem isDigit_ne_minus (c : Char) (h : c.isDigit = true) : ¬(c = '-') := by
  intro h1; subst h1; exact absurd h (by decide)

theorem isDigit_ne_plus (c : Char) (h : c.isDigit = true) : ¬(c = '+') := by
  intro h1; subst h1; exact absurd h (by decide)

theorem pyInt_of_digits (l : List Char) (hnil : l ≠ [])
    (hdig : ∀ c ∈ l, c.isDigit = true) :
    pyInt l = some (parseDigits l : Int) := by
  have hstrip : pyStrip l = l :=
    pyStrip_eq_self _ (fun c hc => isPySpace_eq_false_of_isDigit c (hdig c hc))
  obtain ⟨c, rest, rfl⟩ := List.exists_cons_of_ne_nil hnil
  have hc : c.isDigit = true := hdig c (by simp)
  unfold pyInt
  rw [hstrip]
  dsimp only
  rw [if_neg (isDigit_ne_minus c hc), if_neg (isDigit_ne_plus c hc)]
  unfold pyIntBody
  rw [if_pos]
  exact ⟨by simp, List.all_eq_true.mpr (fun x hx => hdig x hx)⟩

theorem pyInt_pad2 (n : Nat) : pyInt (pad2 n) = some (n : Int) := by
  rw [pyInt_of_digits (pad2 n) (padLeft_ne_nil 2 n) (padLeft_all_digit 2 n)]
  unfold pad2
  rw [parseDigits_padLeft, parseDigits_natChars]

theorem splitCols_no_colon (l : List Char) (h : ∀ c ∈ l, ¬(c = ':')) :
    splitCols l = [l] := by
  induction l with
  | nil => rfl
  | cons c rest ih =>
    unfold splitCols
    rw [if_neg (h c (by simp)), ih (fun x hx => h x (by simp [hx]))]

theorem splitCols_append (a b : List Char) (h : ∀ c ∈ a, ¬(c = ':')) :
    splitCols (a ++ ':' :: b) = a :: splitCols b := by
  induction a with
  | nil => simp [splitCols]
  | cons c rest ih =>
    have hrest := ih (fun x hx => h x (by simp [hx]))
    simp only [List.cons_append]
    conv_lhs => rw [splitCols]
    rw [if_neg (h c (by simp)), hrest]

theorem pad2_no_colon (n : Nat) : ∀ c ∈ pad2 n, ¬(c = ':') := by
  intro c hc heq
  have := padLeft_all_digit 2 n c hc
  subst heq
  exact absurd this (by decide)

theorem pad2_no_space (n : Nat) : ∀ c ∈ pad2 n, isPySpace c = false :=
  fun c hc => isPySpace_eq_false_of_isDigit c (padLeft_all_digit 2 n c hc)

/-- Splitting the characters of `format_hhmmss` on `":"` yields exactly
the three padded fields. -/
theorem splitCols_format (x y z : Nat) :
    splitCols (pad2 x ++ ':' :: pad2 y ++ ':' :: pad2 z)
      = [pad2 x, pad2 y, pad2 z] := by
  rw [List.append_assoc, List.cons_append,
    splitCols_append _ _ (pad2_no_colon x),
    splitCols_append _ _ (pad2_no_colon y),
    splitCols_no_colon _ (pad2_no_colon z)]

theorem pyStrip_format (x y z : Nat) :
    pyStrip (pad2 x ++ ':' :: pad2 y ++ ':' :: pad2 z)
      = pad2 x ++ ':' :: pad2 y ++ ':' :: pad2 z := by
  apply pyStrip_eq_self
  intro c hc
  simp only [List.mem_append, List.mem_cons] at hc
  rcases hc with (h | rfl | h) | rfl | h
  · exact pad2_no_space x c h
  · decide
  · exact pad2_no_space y c h
  · decide
  · exact pad2_no_space z c h

/-- `parse_hhmmss` inverts `format_hhmmss` on every non-negative number
of seconds. -/
theorem parse_format_roundtrip (s : Int) (hs : 0 ≤ s) :
    parse_hhmmss (format_hhmmss s) = s := by
  unfold format_hhmmss parse_hhmmss
  set n := s.toNat with hn
  dsimp only
  rw [pyStrip_format, splitCols_format]
  dsimp only
  rw [pyInt_pad2, pyInt_pad2, pyInt_pad2]
  dsimp only
  have hsn : (n : Int) = s := by omega
  rw [← hsn]
  push_cast
  have h1 : n / 3600 * 3600 + n % 3600 / 60 * 60 + n % 60 = n := by omega
  omega

/-! ## Lemmas about the association-list file stores. -/

theorem getFile_setFile_self (d : LiveDir) (k : String) (v : LiveFileState) :
    getFile (setFile d k v) k = some v := by
  induction d with
  | nil => simp [setFile, getFile]
  | cons e rest ih =>
    obtain ⟨k2, v2⟩ := e
    by_cases h : k2 = k
    · simp [setFile, getFile, h]
    · simp [setFile, getFile, h, ih]

theorem getFile_setFile_ne (d : LiveDir) (k k2 : String) (v : LiveFileState)
    (h : k2 ≠ k) : getFile (setFile d k v) k2 = getFile d k2 := by
  have h2 : ¬(k = k2) := fun he => h he.symm
  induction d with
  | nil => simp [setFile, getFile, h2]
  | cons e rest ih =>
    obtain ⟨k3, v3⟩ := e
    unfold setFile
    by_cases h3 : k3 = k
    · rw [if_pos h3]
      subst h3
      unfold getFile
      rw [if_neg h2, if_neg h2]
    · rw [if_neg h3]
      unfold getFile
      by_cases h4 : k3 = k2
      · rw [if_pos h4, if_pos h4]
      · rw [if_neg h4, if_neg h4]
        exact ih

theorem getData_setData_self (fs : CompletedFS) (p : String) (v : List Nat) :
    getData (setData fs p v) p = some v := by
  induction fs with
  | nil => simp [setData, getData]
  | cons e rest ih =>
    obtain ⟨p2, v2⟩ := e
    by_cases h : p2 = p
    · simp [setData, getData, h]
    · simp [setData, getData, h, ih]

theorem getData_setData_ne (fs : CompletedFS) (p q : String) (v : List Nat)
    (h : q ≠ p) : getData (setData fs p v) q = getData fs q := by
  have h2 : ¬(p = q) := fun he => h he.symm
  induction fs with
  | nil => simp [setData, getData, h2]
  | cons e rest ih =>
    obtain ⟨p3, v3⟩ := e
    unfold setData
    by_cases h3 : p3 = p
    · rw [if_pos h3]
      subst h3
      unfold getData
      rw [if_neg h2, if_neg h2]
    · rw [if_neg h3]
      unfold getData
      by_cases h4 : p3 = q
      · rw [if_pos h4, if_pos h4]
      · rw [if_neg h4, if_neg h4]
        exact ih

theorem getData_removeData_ne (fs : CompletedFS) (p q : String) (h : q ≠ p) :
    getData (removeData fs p) q = getData fs q := by
  have h2 : ¬(p = q) := fun he => h he.symm
  induction fs with
  | nil => rfl
  | cons e rest ih =>
    obtain ⟨p2, v2⟩ := e
    unfold removeData
    by_cases h3 : p2 = p
    · rw [if_pos h3, ih]
      subst h3
      show getData rest q = if p2 = q then some v2 else getData rest q
      rw [if_neg h2]
    · rw [if_neg h3]
      show (if p2 = q then some v2 else getData (removeData rest p) q)
        = if p2 = q then some v2 else getData rest q
      by_cases h4 : p2 = q
      · rw [if_pos h4, if_pos h4]
      · rw [if_neg h4, if_neg h4]
        exact ih

/-- The temporary path is never the final path. -/
theorem tmpPathOf_ne (p : String) : ¬(tmpPathOf p = p) := by
  intro h
  have hl := congrArg String.length h
  have h4 : String.length ".tmp" = 4 := rfl
  simp only [tmpPathOf, String.length_append, h4] at hl
  omega

/-! ## Lemmas about the timer state machine. -/

/-- Folding a list of `pause()`/`resume()` pairs over a running timer
keeps it running with no open pause and adds exactly the sum of the
completed pause intervals. -/
theorem run_pairs_spec (pairs : List (Int × Int)) :
    ∀ (t0 acc : Int) (e : Option Int),
      run_pause_resume_pairs ⟨"running", some t0, e, none, acc⟩ pairs
        = some ⟨"running", some t0, e, none,
            acc + completed_pause_sum pairs⟩ := by
  induction pairs with
  | nil =>
    intro t0 acc e
    simp [run_pause_resume_pairs, completed_pause_sum]
  | cons pr rest ih =>
    intro t0 acc e
    obtain ⟨p, r⟩ := pr
    simp only [run_pause_resume_pairs, pause_task, resume_task]
    rw [ih]
    simp only [Option.some.injEq, TimerState.mk.injEq, true_and]
    simp only [completed_pause_sum, List.map_cons, List.sum_cons]
    ring

/-- Strings that agree before and after a differing middle segment are
different. -/
theorem append_mid_ne (A B x y : String) (h : ¬(x = y)) :
    ¬(A ++ x ++ B = A ++ y ++ B) := by
  intro he
  apply h
  have hd := congrArg String.data he
  simp only [String.data_append] at hd
  have h1 : x.data ++ B.data = y.data ++ B.data :=
    List.append_cancel_left
      (List.append_assoc A.data x.data B.data ▸
        List.append_assoc A.data y.data B.data ▸ hd)
  have h2 : x.data = y.data := List.append_cancel_right h1
  cases x; cases y
  exact congrArg String.mk h2

/-! ## The claims. -/

/-- Claim C1: for every timer state with `start_utc` set,
`compute_elapsed_seconds` returns `max(0, reference - start - pause_total)`
where the reference is `end_utc` when the phase is `"ended"` and the
current time otherwise, and the pause total is `paused_seconds` plus the
open interval since `pause_start_utc` when the phase is `"paused"`; and
after any sequence of `pause()`/`resume()` pairs following `start()` the
result is the wall-clock time since start minus the sum of the completed
pause intervals, clamped to be non-negative. -/
theorem claim_C1_elapsed_pause_accounting :
    (∀ (s : TimerState) (now start : Int),
        s.start_utc = some start → ¬(s.state = "ended") →
        compute_elapsed_seconds s now
          = some (max 0 (now - start - pause_total_spec s now)))
  ∧ (∀ (s : TimerState) (now start e : Int),
        s.start_utc = some start → s.state = "ended" → s.end_utc = some e →
        compute_elapsed_seconds s now
          = some (max 0 (e - start - pause_total_spec s now)))
  ∧ (∀ (t0 : Int) (pairs : List (Int × Int)) (now : Int) (s : TimerState),
        run_pause_resume_pairs (start_task initial_state t0) pairs = some s →
        compute_elapsed_seconds s now
          = some (max 0 (now - t0 - completed_pause_sum pairs))) := by
  refine ⟨?_, ?_, ?_⟩
  · intro s now start h1 h2
    unfold compute_elapsed_seconds pause_total_spec
    rw [h1]
    dsimp only
    rw [if_neg h2]
  · intro s now start e h1 h2 h3
    unfold compute_elapsed_seconds pause_total_spec
    rw [h1]
    dsimp only
    rw [if_pos h2, h3, if_neg (by rw [h2]; decide)]
  · intro t0 pairs now s h
    rw [show start_task initial_state t0
        = ⟨"running", some t0, none, none, 0⟩ from rfl] at h
    rw [run_pairs_spec pairs t0 0 none] at h
    simp only [Option.some.injEq] at h
    subst h
    unfold compute_elapsed_seconds
    dsimp only
    rw [if_neg (by decide : ¬(("running" : String) = "ended"))]
    dsimp only
    rw [if_neg (by decide : ¬(("running" : String) = "paused"))]
    rw [show (0 : Int) + completed_pause_sum pairs + 0
        = completed_pause_sum pairs from by ring]

/-- Witness for claim C1: start at 0, pause at 300, resume at 360,
observe at 480 — elapsed is 420, the 60-second pause excluded
(Scenario A of the spec). -/
theorem claim_C1_witness :
    compute_elapsed_seconds ⟨"running", some 0, none, none, 60⟩ 480
      = some 420 := by
  have h := claim_C1_elapsed_pause_accounting.2.2 0 [(300, 360)] 480
    ⟨"running", some 0, none, none, 60⟩ (by decide)
  exact h.trans (by decide)

/-- Claim C2 (code divergence): `end_task` called while the phase is
`"paused"` does not fold the pending pause interval into
`paused_seconds` — started at 0, paused at 100 with no prior pauses, and
ended at 160, the state keeps `paused_seconds = 0` (the claim and spec
require 60) and the final elapsed computation yields 160 seconds, which
includes the still-open pause (the claim and spec require 100). -/
theorem claim_C2_end_from_paused_divergence :
    end_task ⟨"paused", some 0, none, some 100, 0⟩ 160
        = ⟨"ended", some 0, some 160, some 100, 0⟩
      ∧ (end_task ⟨"paused", some 0, none, some 100, 0⟩ 160).paused_seconds
        = 0
      ∧ compute_elapsed_seconds
          (end_task ⟨"paused", some 0, none, some 100, 0⟩ 160) 160
        = some 160 := by
  decide

/-- Claim C3: each crash point of `atomic_write_parquet` leaves the final
path either unchanged or holding the complete record content — the
partial bytes only ever live at the `.tmp` path, and no other path of
the store is touched. -/
theorem claim_C3_atomic_append :
    (∀ (fs : CompletedFS) (p : String) (content : List Nat) (k : Nat),
        getData (atomic_write_parquet_step fs p content k) p
          = if k ≤ content.length then getData fs p else some content)
  ∧ (∀ (fs : CompletedFS) (p q : String) (content : List Nat) (k : Nat),
        ¬(q = p) → ¬(q = tmpPathOf p) →
        getData (atomic_write_parquet_step fs p content k) q
          = getData fs q) := by
  constructor
  · intro fs p content k
    unfold atomic_write_parquet_step
    by_cases hk : k ≤ content.length
    · rw [if_pos hk, if_pos hk,
        getData_setData_ne _ _ _ _ (fun he => tmpPathOf_ne p he.symm)]
    · rw [if_neg hk, if_neg hk, getData_setData_self]
  · intro fs p q content k hq hqt
    unfold atomic_write_parquet_step
    by_cases hk : k ≤ content.length
    · rw [if_pos hk, getData_setData_ne _ _ _ _ hqt]
    · rw [if_neg hk, getData_setData_ne _ _ _ _ hq,
        getData_removeData_ne _ _ _ hqt]

/-- Witness for claim C3: a bystander file is untouched mid-write. -/
theorem claim_C3_witness :
    getData
        (atomic_write_parquet_step [("a.parquet", [7])] "b.parquet" [1, 2] 1)
        "a.parquet"
      = getData [("a.parquet", [7])] "a.parquet" :=
  claim_C3_atomic_append.2 [("a.parquet", [7])] "b.parquet" "a.parquet"
    [1, 2] 1 (by decide) (by decide)

/-- A concrete stand-in Eastern conversion used to instantiate the
timezone parameter on concrete instants: it distinguishes instants that
differ within a minute. -/
def toEastEx : Int → CivilDT :=
  fun t => ⟨2025, 6, 1, 12, 0, t.toNat % 60⟩

/-- Counterexample to claim C4 as stated: the submit filename embeds the
record's start timestamp, not the submission timestamp — for a record
started at instant 0 and submitted at instant 30 the written name is
`task_20250601_120000_8c1f0aaa.parquet`, which differs from the name the
claim prescribes (the submission instant embedded). -/
theorem claim_C4_counterexample :
    task_file_name toEastEx 0 "8c1f0aaa-0000"
        = "task_20250601_120000_8c1f0aaa.parquet"
      ∧ ¬(task_file_name toEastEx 0 "8c1f0aaa-0000"
        = task_file_name_spec toEastEx 30 "8c1f0aaa-0000") := by
  decide

/-- Claim C4 as amended: every record is written under the partition path
`user={key}/year={YYYY}/month={MM}/day={DD}` computed from the Eastern
conversion of the record's start instant, with a filename embedding the
record's start timestamp (not the submission timestamp) plus the first
eight characters of its `TaskID`; records whose id fragments differ get
distinct filenames even in the same partition and second, so neither
overwrites the other. -/
theorem claim_C4_partitioned_unique_files :
    (∀ (toEast : Int → CivilDT) (dir : List String) (key : String) (ts : Int),
        build_out_dir toEast dir key ts
          = dir ++ ["user=" ++ key,
                    "year=" ++ String.mk (natChars (toEast ts).year),
                    "month=" ++ padNum 2 (toEast ts).month,
                    "day=" ++ padNum 2 (toEast ts).day])
  ∧ (∀ (toEast : Int → CivilDT) (start : Int) (id1 id2 : String),
        ¬(id1.take 8 = id2.take 8) →
        ¬(task_file_name toEast start id1
          = task_file_name toEast start id2)) := by
  constructor
  · intro toEast dir key ts
    rfl
  · intro toEast start id1 id2 h
    unfold task_file_name
    exact append_mid_ne ("task_" ++ strftime_compact (toEast start) ++ "_")
      ".parquet" (id1.take 8) (id2.take 8) h

/-- Witness for claim C4: two ids with different 8-character fragments
give different filenames for the same start second. -/
theorem claim_C4_witness :
    ¬(task_file_name toEastEx 0 "aaaaaaaa-1111"
      = task_file_name toEastEx 0 "bbbbbbbb-1111") :=
  claim_C4_partitioned_unique_files.2 toEastEx 0 "aaaaaaaa-1111"
    "bbbbbbbb-1111" (by decide)

/-- Claim C5: the stored duration is never negative — a negative parse of
the edited duration string (the `-1` sentinel included) falls back to the
previously computed elapsed seconds, itself always non-negative, and a
non-negative parse is stored as parsed; editing to `"02:00:00"` when the
computed elapsed was 7215 stores 7200. -/
theorem claim_C5_duration_fallback :
    (∀ (edited : String) (elapsed : Int),
        0 ≤ elapsed → 0 ≤ submit_duration edited elapsed)
  ∧ (∀ (edited : String) (elapsed : Int),
        parse_hhmmss edited < 0 → submit_duration edited elapsed = elapsed)
  ∧ (∀ (edited : String) (elapsed : Int),
        0 ≤ parse_hhmmss edited →
        submit_duration edited elapsed = parse_hhmmss edited)
  ∧ (∀ (s : TimerState) (now v : Int),
        compute_elapsed_seconds s now = some v → 0 ≤ v)
  ∧ submit_duration "02:00:00" 7215 = 7200 := by
  refine ⟨?_, ?_, ?_, ?_, by decide⟩
  · intro edited elapsed he
    unfold submit_duration
    by_cases hp : parse_hhmmss edited < 0
    · rw [if_pos hp]; exact he
    · rw [if_neg hp]; omega
  · intro edited elapsed hp
    unfold submit_duration
    rw [if_pos hp]
  · intro edited elapsed hp
    unfold submit_duration
    rw [if_neg (by omega)]
  · intro s now v h
    unfold compute_elapsed_seconds at h
    cases hs : s.start_utc with
    | none =>
      rw [hs] at h
      simp only [Option.some.injEq] at h
      omega
    | some start =>
      rw [hs] at h
      dsimp only at h
      cases href : (if s.state = "ended" then s.end_utc else some now) with
      | none => rw [href] at h; exact absurd h (by simp)
      | some ref =>
        rw [href] at h
        dsimp only at h
        simp only [Option.some.injEq] at h
        rw [← h]
        exact le_max_left 0 _

/-- Witness for claim C5: an unparseable edit keeps the non-negative
computed elapsed value. -/
theorem claim_C5_witness : 0 ≤ submit_duration "totally bogus" 7 :=
  claim_C5_duration_fallback.1 "totally bogus" 7 (by decide)

/-- Claim C6: a live-activity snapshot written by `save_live_activity` or
`update_live_activity_state` for a user key and then read back by
`load_own_live_activity` for the same key reproduces the state string,
start instant, accumulated pause seconds, and pause-start instant
(including its absence) exactly. -/
theorem claim_C6_live_roundtrip :
    (∀ (d : LiveDir) (user_key user_login full_name task_name cadence
          account covering_for notes : String) (start_utc : Int)
          (state : String) (paused : Int) (ps : Option Int),
        (load_own_live_activity
            (save_live_activity d user_key user_login full_name task_name
              cadence account covering_for notes start_utc state paused ps)
            user_key).map
            (fun snap => (snap.state, snap.start_utc, snap.paused_seconds,
              snap.pause_start_utc))
          = some (state, start_utc, paused, ps))
  ∧ (∀ (d : LiveDir) (user_key state : String) (paused : Int)
        (ps : Option Int) (r : LiveRow) (rs : List LiveRow),
        getFile d user_key = some (.table (r :: rs)) →
        (load_own_live_activity
            (update_live_activity_state d user_key state paused ps)
            user_key).map
            (fun snap => (snap.state, snap.start_utc, snap.paused_seconds,
              snap.pause_start_utc))
          = some (state, r.StartTimestampUTC, paused, ps)) := by
  constructor
  · intro d user_key user_login full_name task_name cadence account
      covering_for notes start_utc state paused ps
    unfold save_live_activity load_own_live_activity
    rw [getFile_setFile_self]
    rfl
  · intro d user_key state paused ps r rs h
    unfold update_live_activity_state
    rw [h]
    dsimp only
    unfold load_own_live_activity
    rw [List.map_cons, getFile_setFile_self]
    rfl

/-- A concrete stored live-activity row used to witness claim C6. -/
def runningRow : LiveRow :=
  { UserKey := "k", UserLogin := "k", FullName := none, TaskName := "T",
    TaskCadence := "Daily", CompanyGroup := none, IsCoveringFor := false,
    CoveringFor := none, Notes := none, StartTimestampUTC := 11,
    State := "running", PausedSeconds := 0, PauseStartTimestampUTC := none }

/-- Witness for claim C6: updating an existing record to paused state is
read back exactly. -/
theorem claim_C6_witness :
    (load_own_live_activity
        (update_live_activity_state [("k", .table [runningRow])]
          "k" "paused" 60 (some 200))
        "k").map
        (fun snap => (snap.state, snap.start_utc, snap.paused_seconds,
          snap.pause_start_utc))
      = some ("paused", 11, 60, some 200) :=
  claim_C6_live_roundtrip.2 [("k", .table [runningRow])] "k" "paused" 60
    (some 200) runningRow [] (by decide)

/-- Counterexample to claim C7 as stated: neither invalid transition is a
no-op — `start_task` from a running state overwrites the start instant,
and `pause_task` from idle moves the phase to paused. -/
theorem claim_C7_counterexample :
    ¬(start_task ⟨"running", some 5, none, none, 0⟩ 9
        = ⟨"running", some 5, none, none, 0⟩)
      ∧ ¬(pause_task initial_state 3 = initial_state) := by
  decide

/-- Claim C7 as amended: the transition functions never raise but do not
guard on the phase either (invalid invocations are prevented by the
caller's disabled buttons): `start_task` from any phase sets the phase to
running and resets the start instant, and `pause_task` from any phase —
idle included — sets the phase to paused and opens a pause interval,
leaving the other timer fields untouched. -/
theorem claim_C7_transitions_unguarded :
    ∀ (s : TimerState) (t : Int),
      (start_task s t).state = "running"
      ∧ (start_task s t).start_utc = some t
      ∧ (start_task s t).end_utc = s.end_utc
      ∧ (start_task s t).pause_start_utc = s.pause_start_utc
      ∧ (start_task s t).paused_seconds = s.paused_seconds
      ∧ (pause_task s t).state = "paused"
      ∧ (pause_task s t).pause_start_utc = some t
      ∧ (pause_task s t).start_utc = s.start_utc
      ∧ (pause_task s t).end_utc = s.end_utc
      ∧ (pause_task s t).paused_seconds = s.paused_seconds := by
  intro s t
  exact ⟨rfl, rfl, rfl, rfl, rfl, rfl, rfl, rfl, rfl, rfl⟩

/-- The record of a user whose stored login differs from their sanitized
user key (concrete instance for claim C8). -/
def ownRow : LiveRow :=
  { UserKey := "john.doe", UserLogin := "John.Doe", FullName := none,
    TaskName := "T", TaskCadence := "Daily", CompanyGroup := none,
    IsCoveringFor := false, CoveringFor := none, Notes := none,
    StartTimestampUTC := 0, State := "running", PausedSeconds := 0,
    PauseStartTimestampUTC := none }

/-- Counterexample to claim C8 as stated: the `task_tracker_utils.py`
variant of `load_live_activities` filters on `UserLogin`, so the caller
with user key `"john.doe"` gets their own record back whenever the stored
login (`"John.Doe"`) differs from the key. -/
theorem claim_C8_counterexample :
    tt_load_live_activities [("john.doe", .table [ownRow])]
        (some "john.doe")
        = [ownRow]
      ∧ ownRow.UserKey = "john.doe" := by
  decide

/-- Claim C8 as amended: for every non-empty caller key, the `utils.py`
`load_live_activities` returns no record whose `UserKey` is the caller's
key, while the `task_tracker_utils.py` variant instead filters on
`UserLogin` — it only guarantees that no returned record has the
caller's key as its `UserLogin`, so the caller's own record escapes the
filter whenever its stored login differs from the key. -/
theorem claim_C8_exclusion :
    (∀ (d : LiveDir) (k : String), ¬(k = "") →
        ∀ r ∈ load_live_activities d (some k), ¬(r.UserKey = k))
  ∧ (∀ (d : LiveDir) (k : String), ¬(k = "") →
        ∀ r ∈ tt_load_live_activities d (some k), ¬(r.UserLogin = k)) := by
  constructor
  · intro d k hk r hr
    unfold load_live_activities at hr
    by_cases hd : d.isEmpty
    · rw [if_pos hd] at hr
      simp at hr
    · rw [if_neg hd] at hr
      cases hra : read_all_rows d with
      | none => rw [hra] at hr; simp at hr
      | some rows =>
        rw [hra] at hr
        dsimp only at hr
        rw [if_neg hk] at hr
        simpa using (List.mem_filter.mp hr).2
  · intro d k hk r hr
    unfold tt_load_live_activities at hr
    by_cases hd : d.isEmpty
    · rw [if_pos hd] at hr
      simp at hr
    · rw [if_neg hd] at hr
      cases hra : read_all_rows d with
      | none => rw [hra] at hr; simp at hr
      | some rows =>
        rw [hra] at hr
        dsimp only at hr
        rw [if_neg hk] at hr
        simpa using (List.mem_filter.mp hr).2

/-- Witness for claim C8: in the `utils.py` variant the caller's own
record cannot be in the listing. -/
theorem claim_C8_witness :
    ¬(ownRow ∈ load_live_activities [("john.doe", .table [ownRow])]
      (some "john.doe")) :=
  fun hmem =>
    claim_C8_exclusion.1 [("john.doe", .table [ownRow])] "john.doe"
      (by decide) ownRow hmem rfl

/-- Claim C9: `parse_hhmmss` inverts `format_hhmmss` on every
non-negative count of seconds, and returns the `-1` sentinel on `""`,
`"abc"`, and `"1:2:3:4"`. -/
theorem claim_C9_parse_format :
    (∀ s : Int, 0 ≤ s → parse_hhmmss (format_hhmmss s) = s)
  ∧ parse_hhmmss "" = -1
  ∧ parse_hhmmss "abc" = -1
  ∧ parse_hhmmss "1:2:3:4" = -1 :=
  ⟨parse_format_roundtrip, by decide, by decide, by decide⟩

/-- Witness for claim C9: the round trip at 3661 seconds. -/
theorem claim_C9_witness : parse_hhmmss (format_hhmmss 3661) = 3661 :=
  claim_C9_parse_format.1 3661 (by decide)

/-- Claim C10: `load_own_live_activity` is a total function into
`Option` — it returns `none` (never raising at the public interface) for
a missing file, for a file whose read raises, and for an empty record
file alike, so a corrupt own record is indistinguishable from no record
and session restore starts fresh. -/
theorem claim_C10_load_own_absent :
    (∀ (d : LiveDir) (k : String), getFile d k = none →
        load_own_live_activity d k = none)
  ∧ (∀ (d : LiveDir) (k : String), getFile d k = some .corrupt →
        load_own_live_activity d k = none)
  ∧ (∀ (d : LiveDir) (k : String), getFile d k = some (.table []) →
        load_own_live_activity d k = none) := by
  refine ⟨?_, ?_, ?_⟩ <;> intro d k h <;>
    unfold load_own_live_activity <;> rw [h]

/-- Witness for claim C10: a corrupt own record reads as absent. -/
theorem claim_C10_witness :
    load_own_live_activity [("k", .corrupt)] "k" = none :=
  claim_C10_load_own_absent.2.1 [("k", .corrupt)] "k" (by decide)

end TaskTracker
